import Mathlib

/-!
Shallow embedding of the multi-provider AI fallback orchestration layer
(backend/src/services/aiService.ts) together with the Gemini adapter retry
logic (backend/src/services/geminiService.ts), the request validation
utilities (backend/src/utils/validation.ts) and the HTTP controllers
(backend/src/controllers/analysisController.ts).

Remote AI services are opaque: an operation run against a provider is
modelled as a value of `Except String T` (`.error msg` models a thrown
JavaScript `Error` with message `msg`). `async`/`await` sequencing is
strictly sequential in the source, so it is modelled by ordinary
function composition; slept delays and invoked providers are recorded in
explicit traces.
-/

namespace CodeMentor

/-- Embeds the `ProviderConfiguration` interface of
backend/src/interfaces/AIProvider.ts: a registry entry with a name, a
numeric priority and an optional availability predicate. The
`checkAvailable` field is `none` when the entry omits the predicate and
`some b` when the predicate is present and returns `b`; the `service`
object itself is supplied separately as the operation closure. -/
structure ProviderConfiguration where
  name : String
  priority : Nat
  checkAvailable : Option Bool
deriving DecidableEq, Repr

/-- Models JavaScript `String.prototype.toLowerCase` on the ASCII
provider names and hints involved: character-wise lowercasing. -/
def jsToLower (s : String) : String :=
  ⟨s.data.map Char.toLower⟩

/-- The comparator of `getAvailableProviders`:
`(a, b) => a.priority - b.priority`, i.e. ascending priority. -/
def priorityLE (a b : ProviderConfiguration) : Prop :=
  a.priority ≤ b.priority

instance : DecidableRel priorityLE :=
  fun a b => Nat.decLe a.priority b.priority

instance : IsTotal ProviderConfiguration priorityLE :=
  ⟨fun a b => Nat.le_total a.priority b.priority⟩

instance : IsTrans ProviderConfiguration priorityLE :=
  ⟨fun _ _ _ => Nat.le_trans⟩

/-- Embeds `AIService.getAvailableProviders`: keep the providers whose
`checkAvailable` is absent or returns true, then sort ascending by
priority. ECMA-262 requires `Array.prototype.sort` to be stable, and a
stable sort of a fixed comparator has a unique result, so the stable
`insertionSort` is an exact model of it. -/
def getAvailableProviders (providers : List ProviderConfiguration) :
    List ProviderConfiguration :=
  List.insertionSort priorityLE (providers.filter fun p => p.checkAvailable.getD true)

/-- Embeds the selection step of `AIService.executeWithFallback`
(aiService.ts lines 24-36): start from the available providers sorted by
priority; when `preferredProvider` is truthy and not the literal string
"auto", find the first provider whose name matches case-insensitively
and splice it to the front. `none` models an absent argument. -/
def computeOrder (providers : List ProviderConfiguration)
    (preferredProvider : Option String) : List ProviderConfiguration :=
  let sortedProviders := getAvailableProviders providers
  match preferredProvider with
  | none => sortedProviders
  | some pref =>
    if pref ≠ "" ∧ pref ≠ "auto" then
      match sortedProviders.findIdx?
          (fun p => jsToLower p.name == jsToLower pref) with
      | some i =>
        match sortedProviders[i]? with
        | some preferred => preferred :: sortedProviders.eraseIdx i
        | none => sortedProviders
      | none => sortedProviders
    else sortedProviders

/-- Embeds the attempt loop of `AIService.executeWithFallback`
(aiService.ts lines 38-69). Returns the loop result together with the
list of providers actually invoked, in invocation order. The catch
block records the error and continues in every case: the rate-limit
classification in the source only logs, both branches execute
`continue`, so a failure of any kind advances to the next provider. -/
def attemptLoop {T : Type} (operation : ProviderConfiguration → Except String T) :
    List ProviderConfiguration → Option String →
    Except String (T × String) × List ProviderConfiguration
  | [], lastError =>
    (.error (match lastError with
      | some msg => "All AI providers failed. Last error: " ++ msg
      | none => "No AI providers available"), [])
  | provider :: rest, _lastError =>
    match operation provider with
    | .ok result => (.ok (result, provider.name), [provider])
    | .error e =>
      let continued := attemptLoop operation rest (some e)
      (continued.1, provider :: continued.2)

/-- Embeds `AIService.executeWithFallback`: compute the candidate order,
then run the attempt loop with no error recorded yet. -/
def executeWithFallback {T : Type}
    (operation : ProviderConfiguration → Except String T)
    (providers : List ProviderConfiguration)
    (preferredProvider : Option String) : Except String (T × String) :=
  (attemptLoop operation (computeOrder providers preferredProvider) none).1

/-- The providers actually invoked by `executeWithFallback`, in
invocation order (the trace component of the attempt loop). -/
def attemptedProviders {T : Type}
    (operation : ProviderConfiguration → Except String T)
    (providers : List ProviderConfiguration)
    (preferredProvider : Option String) : List ProviderConfiguration :=
  (attemptLoop operation (computeOrder providers preferredProvider) none).2

/-- Embeds the static provider registry of aiService.ts lines 8-12: the
Gemini and HuggingFace entries carry no `checkAvailable` predicate; the
Groq entry delegates to `groqService.isAvailable()`, whose result is the
parameter `groqAvailable`. -/
def aiServiceProviders (groqAvailable : Bool) : List ProviderConfiguration :=
  [ { name := "Gemini", priority := 1, checkAvailable := none },
    { name := "Groq", priority := 2, checkAvailable := some groqAvailable },
    { name := "HuggingFace", priority := 3, checkAvailable := none } ]

/-- Helper for `stringIncludes`: the pattern is a leading segment of the
character list. -/
def charsStartWith : List Char → List Char → Bool
  | _, [] => true
  | [], _ :: _ => false
  | c :: cs, p :: ps => c == p && charsStartWith cs ps

/-- Helper for `stringIncludes`: the pattern occurs somewhere in the
character list. -/
def charsContain (s pat : List Char) : Bool :=
  match s with
  | [] => pat.isEmpty
  | _ :: rest => charsStartWith s pat || charsContain rest pat

/-- Models JavaScript `String.prototype.includes`. -/
def stringIncludes (s pat : String) : Bool :=
  charsContain s.toList pat.toList

/-- Embeds the rate-limit test of `GeminiService.retryWithBackoff`
(geminiService.ts line 73): the error message contains "429" or
"quota" as a substring. -/
def geminiIsRateLimitError (msg : String) : Bool :=
  stringIncludes msg "429" || stringIncludes msg "quota"

/-- Outcome of one run of `retryWithBackoff`: the value returned or the
error thrown, the number of times the operation was invoked, and the
backoff delays slept, in order of occurrence. -/
structure RetryOutcome (T : Type) where
  result : Except String T
  attempts : Nat
  delays : List Nat
deriving Repr

/-- Loop body of `GeminiService.retryWithBackoff` (geminiService.ts
lines 64-88), starting at iteration `attempt`. The operation is a
sequence of outcomes: `op k` is what the k-th invocation of the supplied
closure returns or throws. The `attempt > maxRetries` branch reproduces
the trailing throw of "Max retries exceeded" after the `for` loop.
The loop is bounded by `maxRetries`, so running it with `maxRetries + 1`
units of structural fuel is exact: the fuel-exhaustion branch repeats
the trailing throw and is never reached from `retryWithBackoff`. -/
def retryWithBackoffGo {T : Type} (op : Nat → Except String T)
    (maxRetries baseDelay : Nat) : Nat → Nat → RetryOutcome T
  | 0, attempt => ⟨.error "Max retries exceeded", attempt - 1, []⟩
  | fuel + 1, attempt =>
    if attempt ≤ maxRetries then
      match op attempt with
      | .ok v => ⟨.ok v, attempt, []⟩
      | .error e =>
        if attempt == maxRetries || !(geminiIsRateLimitError e) then
          ⟨.error e, attempt, []⟩
        else
          let continued := retryWithBackoffGo op maxRetries baseDelay fuel (attempt + 1)
          ⟨continued.result, continued.attempts,
            baseDelay * 2 ^ (attempt - 1) :: continued.delays⟩
    else
      ⟨.error "Max retries exceeded", attempt - 1, []⟩

/-- Embeds `GeminiService.retryWithBackoff`: run the loop from
attempt 1. The source defaults are `maxRetries = 3`, `baseDelay = 1000`. -/
def retryWithBackoff {T : Type} (op : Nat → Except String T)
    (maxRetries baseDelay : Nat) : RetryOutcome T :=
  retryWithBackoffGo op maxRetries baseDelay (maxRetries + 1) 1

/-- Embeds the module-level configuration of backend/src/config/config.ts:
`gemini.apiKey` is the environment value, defaulted to the empty string. -/
structure GeminiConfig where
  apiKey : String
deriving DecidableEq, Repr

/-- A successfully constructed `GeminiService` instance; it reads its
credential from the module-level immutable config. -/
structure GeminiService where
  config : GeminiConfig
deriving DecidableEq, Repr

/-- Embeds loading the geminiService.ts module, whose last line runs
`export default new GeminiService()`: the constructor throws
"Gemini API key is required" when the configured key is falsy (the empty
string), so the module either fails to load or yields an instance. -/
def loadGeminiModule (config : GeminiConfig) : Except String GeminiService :=
  if config.apiKey == "" then .error "Gemini API key is required"
  else .ok ⟨config⟩

/-- Embeds `GeminiService.isAvailable`: `!!config.gemini.apiKey`. -/
def GeminiService.isAvailable (s : GeminiService) : Bool :=
  s.config.apiKey != ""

/-- A JavaScript value as it reaches the validation utilities through a
parsed JSON request body (floating point refinements are irrelevant to
the validated fields, so numbers are integers here). -/
inductive JsValue where
  | jsUndefined
  | nullv
  | str (s : String)
  | num (n : Int)
  | boolean (b : Bool)
deriving DecidableEq, Repr

/-- JavaScript truthiness of a `JsValue`. -/
def JsValue.truthy : JsValue → Bool
  | .jsUndefined => false
  | .nullv => false
  | .str s => s != ""
  | .num n => n != 0
  | .boolean b => b

/-- Models the JavaScript test `typeof code` being the string type. -/
def JsValue.isStringValue : JsValue → Bool
  | .str _ => true
  | _ => false

/-- The underlying string of a string value; only consulted after
`isStringValue` succeeded, as in the source short-circuit. -/
def JsValue.asString : JsValue → String
  | .str s => s
  | _ => ""

/-- Models JavaScript `String.prototype.trim`: drop whitespace from both
ends, character-wise. -/
def jsTrim (s : String) : String :=
  ⟨((s.data.dropWhile Char.isWhitespace).reverse.dropWhile
      Char.isWhitespace).reverse⟩

/-- Embeds `validateCode` (validation.ts lines 7-17): returns the error
message, or `none` when the code passes. -/
def validateCode (code : JsValue) : Option String :=
  if !code.truthy || !code.isStringValue || (jsTrim code.asString).length == 0 then
    some "Code is required and must be a non-empty string"
  else if code.asString.length > 2000000 then
    some "Code is too large. Maximum size is 2MB"
  else
    none

/-- Embeds `validateLanguage` (validation.ts): non-strings and unknown
languages silently normalize to "javascript". -/
def validateLanguage (language : JsValue) : String :=
  match language with
  | .str s =>
    if s == "" then "javascript"
    else
      let supported := ["javascript", "typescript", "python", "java", "cpp",
        "c", "csharp", "php", "ruby", "go", "rust", "swift", "html", "css",
        "scss", "json", "markdown", "sql", "bash", "text"]
      if supported.contains (jsToLower s) then jsToLower s else "javascript"
  | _ => "javascript"

/-- Embeds `validateAnalysisType` (validation.ts): anything outside the
enumerated set normalizes to "general". -/
def validateAnalysisType (analysisType : JsValue) : String :=
  match analysisType with
  | .str s =>
    if ["general", "security", "performance", "maintainability"].contains s
    then s else "general"
  | _ => "general"

/-- Embeds `validateProviderType` (validation.ts): anything outside the
enumerated set normalizes to "auto". -/
def validateProviderType (provider : JsValue) : String :=
  match provider with
  | .str s =>
    if ["gemini", "groq", "huggingface", "auto"].contains s then s else "auto"
  | _ => "auto"

/-- Embeds the `metadata` object of `ProcessedAnalysisResult`
(types/analysis.ts). -/
structure ProcessedMetadata where
  language : String
  analysisType : String
  timestamp : String
deriving DecidableEq, Repr

/-- Embeds `ProcessedAnalysisResult` (types/analysis.ts): the outcome
envelope every AIService operation wrapper returns. -/
structure ProcessedAnalysisResult where
  analysis : String
  provider : String
  metadata : ProcessedMetadata
deriving DecidableEq, Repr

/-- Embeds the operation closure of `AIService.generateReport`
(aiService.ts lines 125-131): probing `provider.service.generateReport`
for presence. `impl p = none` models an adapter without the optional
method (the closure then throws); `impl p = some r` models calling the
method on the request arguments, with outcome `r`. -/
def reportOperation (impl : ProviderConfiguration → Option (Except String String))
    (provider : ProviderConfiguration) : Except String String :=
  match impl provider with
  | some r => r
  | none => .error "Report generation not supported by this provider"

/-- Embeds `AIService.generateReport` (aiService.ts lines 123-143): run
the report closure through the fallback, then wrap the result in the
outcome envelope. `now` is the value of `new Date().toISOString()`
evaluated after the awaited orchestration completes. -/
def aiGenerateReport (impl : ProviderConfiguration → Option (Except String String))
    (providers : List ProviderConfiguration) (now : String) :
    Except String ProcessedAnalysisResult :=
  match executeWithFallback (reportOperation impl) providers none with
  | .ok (report, provider) =>
    .ok { analysis := report, provider := provider,
          metadata := { language := "multiple", analysisType := "report",
                        timestamp := now } }
  | .error e => .error e

/-- Embeds `AIService.analyzeCode` (aiService.ts lines 73-89) applied to
an already validated request: run the per-provider `analyzeCode` closure
through the fallback, then wrap. The closure behaviour is abstracted as
`operation`. -/
def aiAnalyzeCode (operation : ProviderConfiguration → Except String String)
    (providers : List ProviderConfiguration)
    (language analysisType preferredProvider : String) (now : String) :
    Except String ProcessedAnalysisResult :=
  match executeWithFallback operation providers (some preferredProvider) with
  | .ok (analysis, provider) =>
    .ok { analysis := analysis, provider := provider,
          metadata := { language := language, analysisType := analysisType,
                        timestamp := now } }
  | .error e => .error e

/-- Embeds `AIService.explainCode` (aiService.ts lines 91-104): no
preferred provider hint, metadata kind "explanation". -/
def aiExplainCode (operation : ProviderConfiguration → Except String String)
    (providers : List ProviderConfiguration) (language now : String) :
    Except String ProcessedAnalysisResult :=
  match executeWithFallback operation providers none with
  | .ok (explanation, provider) =>
    .ok { analysis := explanation, provider := provider,
          metadata := { language := language, analysisType := "explanation",
                        timestamp := now } }
  | .error e => .error e

/-- Embeds `AIService.suggestImprovements` (aiService.ts lines 106-121):
no preferred provider hint, metadata kind "improvements". -/
def aiSuggestImprovements (operation : ProviderConfiguration → Except String String)
    (providers : List ProviderConfiguration) (language now : String) :
    Except String ProcessedAnalysisResult :=
  match executeWithFallback operation providers none with
  | .ok (suggestions, provider) =>
    .ok { analysis := suggestions, provider := provider,
          metadata := { language := language, analysisType := "improvements",
                        timestamp := now } }
  | .error e => .error e

/-- A JSON tree, modelling what `res.status(...).json(...)` serializes. -/
inductive Json where
  | str (s : String)
  | num (n : Int)
  | boolean (b : Bool)
  | arr (elems : List Json)
  | obj (fields : List (String × Json))
deriving Repr

/-- Field lookup in a JSON object. -/
def Json.getField : Json → String → Option Json
  | .obj fields, key => fields.lookup key
  | _, _ => none

/-- Serialization of a `ProcessedAnalysisResult` as the JSON object the
source object literal builds. -/
def jsonOfProcessed (r : ProcessedAnalysisResult) : Json :=
  .obj [("analysis", .str r.analysis), ("provider", .str r.provider),
        ("metadata", .obj [("language", .str r.metadata.language),
                           ("analysisType", .str r.metadata.analysisType),
                           ("timestamp", .str r.metadata.timestamp)])]

/-- Embeds `sendSuccess` (responseUtils): HTTP 200 with
`{success:true, data}`. -/
def sendSuccess (data : Json) : Nat × Json :=
  (200, .obj [("success", .boolean true), ("data", data)])

/-- Embeds `sendError` (responseUtils): `{success:false, error, message}`
with the given status. -/
def sendError (error message : String) (statusCode : Nat) : Nat × Json :=
  (statusCode, .obj [("success", .boolean false), ("error", .str error),
                     ("message", .str message)])

/-- Embeds `sendValidationError` (responseUtils): `sendError` with the
fixed "Validation Error" label and status 400. -/
def sendValidationError (message : String) : Nat × Json :=
  sendError "Validation Error" message 400

/-- Embeds `sendServerError` (responseUtils): status 500 with the caught
error message. -/
def sendServerError (message : String) : Nat × Json :=
  sendError "Internal Server Error" message 500

/-- Embeds the `analyzeCode` controller (analysisController.ts lines
7-31) together with the orchestration it triggers. Returns the HTTP
response and the trace of providers invoked on its behalf (empty when
validation rejects the request before the service is called). The
per-provider behaviour of the closure built from the validated request
is abstracted as `operation`. -/
def analyzeCodeController (operation : ProviderConfiguration → Except String String)
    (providers : List ProviderConfiguration)
    (code language analysisType preferredProvider : JsValue) (now : String) :
    (Nat × Json) × List ProviderConfiguration :=
  match validateCode code with
  | some codeError => (sendValidationError codeError, [])
  | none =>
    match aiAnalyzeCode operation providers (validateLanguage language)
        (validateAnalysisType analysisType)
        (validateProviderType preferredProvider) now with
    | .ok result =>
      (sendSuccess (jsonOfProcessed result),
       attemptedProviders operation providers
         (some (validateProviderType preferredProvider)))
    | .error e =>
      (sendServerError e,
       attemptedProviders operation providers
         (some (validateProviderType preferredProvider)))

/-- Embeds the `explainCode` controller (analysisController.ts lines
33-49): validate the code, then run the explain operation with default
provider ordering. -/
def explainCodeController (operation : ProviderConfiguration → Except String String)
    (providers : List ProviderConfiguration)
    (code language : JsValue) (now : String) :
    (Nat × Json) × List ProviderConfiguration :=
  match validateCode code with
  | some codeError => (sendValidationError codeError, [])
  | none =>
    match aiExplainCode operation providers (validateLanguage language) now with
    | .ok result =>
      (sendSuccess (jsonOfProcessed result),
       attemptedProviders operation providers none)
    | .error e =>
      (sendServerError e, attemptedProviders operation providers none)

/-- Embeds the `suggestImprovements` controller (analysisController.ts
lines 51-71): validate the code, then run the improvement operation with
default provider ordering. -/
def suggestImprovementsController
    (operation : ProviderConfiguration → Except String String)
    (providers : List ProviderConfiguration)
    (code language : JsValue) (now : String) :
    (Nat × Json) × List ProviderConfiguration :=
  match validateCode code with
  | some codeError => (sendValidationError codeError, [])
  | none =>
    match aiSuggestImprovements operation providers (validateLanguage language) now with
    | .ok result =>
      (sendSuccess (jsonOfProcessed result),
       attemptedProviders operation providers none)
    | .error e =>
      (sendServerError e, attemptedProviders operation providers none)

/-- Embeds the `generateReport` controller (analysisController.ts lines
73-96): `analysisResults` is `none` when the body field is missing or
not an array; on success the response data nests the whole service
outcome under the key "report" next to endpoint metadata. `generatedAt`
is the value of `new Date().toISOString()` taken while building the
response. -/
def generateReportController
    (impl : ProviderConfiguration → Option (Except String String))
    (providers : List ProviderConfiguration)
    (analysisResults : Option (List Json)) (projectInfo : Json)
    (now generatedAt : String) : (Nat × Json) × List ProviderConfiguration :=
  match analysisResults with
  | none => (sendValidationError "Analysis results must be provided as a non-empty array", [])
  | some results =>
    if results.length == 0 then
      (sendValidationError "Analysis results must be provided as a non-empty array", [])
    else
      match aiGenerateReport impl providers now with
      | .ok report =>
        (sendSuccess (.obj
           [("report", jsonOfProcessed report),
            ("metadata", .obj [("projectInfo", projectInfo),
                               ("generatedAt", .str generatedAt),
                               ("resultsCount", .num results.length)])]),
         attemptedProviders (reportOperation impl) providers none)
      | .error e =>
        (sendServerError e, attemptedProviders (reportOperation impl) providers none)

/-- The value of the `lastError` variable after the attempt loop has
consumed the providers `l`, starting from recorded error `le`. -/
def lastFailure {T : Type} (op : ProviderConfiguration → Except String T)
    (l : List ProviderConfiguration) (le : Option String) : Option String :=
  l.foldl (fun acc q => match op q with | .error e => some e | .ok _ => acc) le

/-- Demo registry used by the spec examples: P1, P2, P3 with priorities
1, 2, 3, all available. -/
def demoProviders : List ProviderConfiguration :=
  [ { name := "P1", priority := 1, checkAvailable := none },
    { name := "P2", priority := 2, checkAvailable := some true },
    { name := "P3", priority := 3, checkAvailable := none } ]

/-- Demo registry with the availability predicate of P2 returning false. -/
def demoProvidersP2Down : List ProviderConfiguration :=
  [ { name := "P1", priority := 1, checkAvailable := none },
    { name := "P2", priority := 2, checkAvailable := some false },
    { name := "P3", priority := 3, checkAvailable := none } ]

/-- An operation sequence that throws a rate-limit error on every
invocation. -/
def rateLimitedOp : Nat → Except String String :=
  fun _ => .error "429 Too Many Requests"

/-- An operation sequence that is rate-limited on the first invocation
and then throws a non-rate-limit error: exercises an abort of the retry
loop in the middle of the attempt budget. -/
def mixedFailureOp : Nat → Except String String :=
  fun k => if k == 1 then .error "429 rate limited" else .error "bad gateway"

/-- A report capability map where only P2 implements `generateReport`,
and that call succeeds. -/
def demoReportImpl : ProviderConfiguration → Option (Except String String) :=
  fun p => if p.name == "P2" then some (.ok "the report") else none

/-- A per-provider operation where P1 throws and every other provider
succeeds. -/
def demoOpP1Fails : ProviderConfiguration → Except String String :=
  fun p => if p.name == "P1" then .error "boom" else .ok ("ok-" ++ p.name)

/-- A per-provider operation where every provider throws. -/
def demoOpAllFail : ProviderConfiguration → Except String String :=
  fun p => .error ("fail-" ++ p.name)

section Lemmas

variable {T : Type}

theorem lastFailure_concat (op : ProviderConfiguration → Except String T)
    (l : List ProviderConfiguration) (q : ProviderConfiguration)
    (le : Option String) (e : String) (he : op q = .error e) :
    lastFailure op (l ++ [q]) le = some e := by
  simp [lastFailure, List.foldl_append, he]

theorem attemptLoop_skip_failures (op : ProviderConfiguration → Except String T) :
    ∀ (l m : List ProviderConfiguration) (le : Option String),
    (∀ q ∈ l, ∃ e, op q = .error e) →
    attemptLoop op (l ++ m) le =
      ((attemptLoop op m (lastFailure op l le)).1,
       l ++ (attemptLoop op m (lastFailure op l le)).2) := by
  intro l
  induction l with
  | nil =>
    intro m le _
    simp [lastFailure]
  | cons q l ih =>
    intro m le hfail
    obtain ⟨e, he⟩ := hfail q (List.mem_cons_self q l)
    have hrest : ∀ x ∈ l, ∃ e, op x = .error e :=
      fun x hx => hfail x (List.mem_cons_of_mem q hx)
    have hlast : lastFailure op (q :: l) le = lastFailure op l (some e) := by
      simp [lastFailure, he]
    simp only [List.cons_append, attemptLoop, he, List.append_eq]
    rw [ih m (some e) hrest, hlast]

theorem attemptLoop_first_success (op : ProviderConfiguration → Except String T)
    (pre : List ProviderConfiguration) (p : ProviderConfiguration)
    (post : List ProviderConfiguration) (v : T) (le : Option String)
    (hpre : ∀ q ∈ pre, ∃ e, op q = .error e) (hp : op p = .ok v) :
    attemptLoop op (pre ++ p :: post) le = (.ok (v, p.name), pre ++ [p]) := by
  rw [attemptLoop_skip_failures op pre (p :: post) le hpre]
  simp [attemptLoop, hp]

theorem attemptLoop_all_fail (op : ProviderConfiguration → Except String T)
    (l : List ProviderConfiguration) (le : Option String)
    (hfail : ∀ q ∈ l, ∃ e, op q = .error e) :
    attemptLoop op l le =
      (.error (match lastFailure op l le with
        | some msg => "All AI providers failed. Last error: " ++ msg
        | none => "No AI providers available"), l) := by
  have h := attemptLoop_skip_failures op l [] le hfail
  rw [List.append_nil] at h
  rw [h]
  simp [attemptLoop]

theorem findIdx?_decomp {α : Type} (p : α → Bool) :
    ∀ (l : List α) (i : Nat), l.findIdx? p = some i →
    ∃ pre a post, l = pre ++ a :: post ∧ pre.length = i ∧ p a = true ∧
      (∀ x ∈ pre, p x = false) ∧ l[i]? = some a ∧ l.eraseIdx i = pre ++ post := by
  intro l
  induction l with
  | nil =>
    intro i h
    simp at h
  | cons x xs ih =>
    intro i h
    rw [List.findIdx?_cons] at h
    by_cases hx : p x
    · rw [if_pos hx] at h
      obtain rfl : (0 : Nat) = i := Option.some.inj h
      exact ⟨[], x, xs, rfl, rfl, hx, by simp, by simp, rfl⟩
    · rw [if_neg hx, List.findIdx?_succ] at h
      obtain ⟨j, hj, rfl⟩ := Option.map_eq_some'.mp h
      obtain ⟨pre, a, post, hl, hlen, hpa, hpre, hget, herase⟩ := ih j hj
      refine ⟨x :: pre, a, post, by simp [hl], by simp [hlen], hpa, ?_, ?_, ?_⟩
      · intro y hy
        rcases List.mem_cons.mp hy with rfl | hy
        · exact eq_false_of_ne_true hx
        · exact hpre y hy
      · simpa using hget
      · simp [List.eraseIdx_cons_succ, herase]

theorem getAvailableProviders_sorted (ps : List ProviderConfiguration) :
    (getAvailableProviders ps).Pairwise priorityLE :=
  List.sorted_insertionSort priorityLE _

theorem getAvailableProviders_perm (ps : List ProviderConfiguration) :
    (getAvailableProviders ps).Perm
      (ps.filter fun p => p.checkAvailable.getD true) :=
  List.perm_insertionSort priorityLE _

theorem computeOrder_perm (ps : List ProviderConfiguration)
    (pref : Option String) :
    (computeOrder ps pref).Perm
      (ps.filter fun p => p.checkAvailable.getD true) := by
  have hbase := getAvailableProviders_perm ps
  rcases pref with _ | s
  · simpa [computeOrder] using hbase
  · by_cases hs : s ≠ "" ∧ s ≠ "auto"
    · simp only [computeOrder, if_pos hs]
      cases hfind : (getAvailableProviders ps).findIdx?
          (fun p => jsToLower p.name == jsToLower s) with
      | none => exact hbase
      | some i =>
        obtain ⟨pre, a, post, hl, _, _, _, hget, herase⟩ :=
          findIdx?_decomp _ _ _ hfind
        simp only [hget, herase]
        exact List.Perm.trans List.perm_middle.symm (hl ▸ hbase)
    · have heq : computeOrder ps (some s) = getAvailableProviders ps := by
        simp only [computeOrder]
        rw [if_neg hs]
      rw [heq]
      exact hbase

theorem attemptLoop_trace_sublist (op : ProviderConfiguration → Except String T) :
    ∀ (l : List ProviderConfiguration) (le : Option String),
    (attemptLoop op l le).2.Sublist l := by
  intro l
  induction l with
  | nil =>
    intro le
    simp [attemptLoop]
  | cons q rest ih =>
    intro le
    cases hq : op q with
    | ok v => simp [attemptLoop, hq]
    | error e =>
      simp only [attemptLoop, hq]
      exact List.Sublist.cons₂ q (ih (some e))

theorem attemptLoop_error_source (op : ProviderConfiguration → Except String T) :
    ∀ (l : List ProviderConfiguration) (le : Option String) (m : String),
    (attemptLoop op l le).1 = .error m →
    (le = none ∧ l = [] ∧ m = "No AI providers available") ∨
    (∃ e, le = some e ∧ l = [] ∧
      m = "All AI providers failed. Last error: " ++ e) ∨
    (∃ q e, q ∈ l ∧ op q = .error e ∧
      m = "All AI providers failed. Last error: " ++ e) := by
  intro l
  induction l with
  | nil =>
    intro le m h
    cases le with
    | none =>
      left
      simp only [attemptLoop, Except.error.injEq] at h
      exact ⟨rfl, rfl, h.symm⟩
    | some e =>
      right; left
      simp only [attemptLoop, Except.error.injEq] at h
      exact ⟨e, rfl, rfl, h.symm⟩
  | cons q rest ih =>
    intro le m h
    cases hq : op q with
    | ok v =>
      simp only [attemptLoop, hq] at h
      cases h
    | error e =>
      simp only [attemptLoop, hq] at h
      rcases ih (some e) m h with ⟨hle, -, -⟩ | ⟨e2, hle, -, hm⟩ | ⟨q2, e2, hq2, he2, hm⟩
      · cases hle
      · right; right
        refine ⟨q, e, List.mem_cons_self q rest, hq, ?_⟩
        obtain rfl : e = e2 := Option.some.inj hle
        exact hm
      · right; right
        exact ⟨q2, e2, List.mem_cons_of_mem q hq2, he2, hm⟩

end Lemmas

/-- C1: for every registry and operation, if some candidate in the
computed attempt order succeeds, `executeWithFallback` returns the
result and name of the first succeeding candidate, the invoked providers
are exactly the failing ones before it plus that candidate (no candidate
after the first success is invoked), and at most one provider is
surfaced as the result source. -/
theorem executeWithFallback_first_success_wins {T : Type}
    (op : ProviderConfiguration → Except String T)
    (providers : List ProviderConfiguration) (preferredProvider : Option String)
    (pre : List ProviderConfiguration) (p : ProviderConfiguration)
    (post : List ProviderConfiguration) (v : T)
    (horder : computeOrder providers preferredProvider = pre ++ p :: post)
    (hpre : ∀ q ∈ pre, ∃ e, op q = .error e)
    (hp : op p = .ok v) :
    executeWithFallback op providers preferredProvider = .ok (v, p.name) ∧
    attemptedProviders op providers preferredProvider = pre ++ [p] := by
  have h := attemptLoop_first_success op pre p post v none hpre hp
  constructor
  · unfold executeWithFallback
    rw [horder, h]
  · unfold attemptedProviders
    rw [horder, h]

/-- Witness for C1 at the spec example: P1 fails, P2 succeeds, so the
provider name surfaced is "P2" and P3 is never invoked. -/
theorem executeWithFallback_first_success_wins_witness :
    computeOrder demoProviders (some "auto") =
      [{ name := "P1", priority := 1, checkAvailable := none }] ++
        { name := "P2", priority := 2, checkAvailable := some true } ::
          [{ name := "P3", priority := 3, checkAvailable := none }] ∧
    executeWithFallback demoOpP1Fails demoProviders (some "auto") =
      .ok ("ok-P2", "P2") ∧
    attemptedProviders demoOpP1Fails demoProviders (some "auto") =
      [{ name := "P1", priority := 1, checkAvailable := none },
       { name := "P2", priority := 2, checkAvailable := some true }] := by
  have hpre : ∀ q ∈ [({ name := "P1", priority := 1, checkAvailable := none } :
      ProviderConfiguration)], ∃ e, demoOpP1Fails q = Except.error e := by
    intro q hq
    rw [List.mem_singleton] at hq
    subst hq
    exact ⟨"boom", rfl⟩
  have h := executeWithFallback_first_success_wins demoOpP1Fails demoProviders
    (some "auto")
    [{ name := "P1", priority := 1, checkAvailable := none }]
    { name := "P2", priority := 2, checkAvailable := some true }
    [{ name := "P3", priority := 3, checkAvailable := none }]
    "ok-P2" (by decide) hpre rfl
  exact ⟨by decide, h.1, h.2⟩

/-- C2: the attempt order is always a permutation of the available
providers; with the hint absent or equal to "auto" it is the
availability-filtered registry sorted ascending by priority; when the
hint matches an available provider case-insensitively, that provider
moves to position 0 and the relative order of the rest is untouched. -/
theorem computeOrder_attempt_ordering (ps : List ProviderConfiguration)
    (pref : String) (i : Nat) (hp1 : pref ≠ "") (hp2 : pref ≠ "auto")
    (hfind : (getAvailableProviders ps).findIdx?
        (fun p => jsToLower p.name == jsToLower pref) = some i) :
    (∀ q : Option String, (computeOrder ps q).Perm
        (ps.filter fun p => p.checkAvailable.getD true)) ∧
    computeOrder ps none = getAvailableProviders ps ∧
    computeOrder ps (some "auto") = getAvailableProviders ps ∧
    (getAvailableProviders ps).Pairwise priorityLE ∧
    ∃ preferred pre post,
      getAvailableProviders ps = pre ++ preferred :: post ∧
      pre.length = i ∧
      (jsToLower preferred.name == jsToLower pref) = true ∧
      (∀ q ∈ pre, (jsToLower q.name == jsToLower pref) = false) ∧
      computeOrder ps (some pref) = preferred :: (pre ++ post) := by
  refine ⟨computeOrder_perm ps, rfl, by simp [computeOrder],
    getAvailableProviders_sorted ps, ?_⟩
  obtain ⟨pre, a, post, hl, hlen, hpa, hpre, hget, herase⟩ :=
    findIdx?_decomp _ _ _ hfind
  refine ⟨a, pre, post, hl, hlen, hpa, hpre, ?_⟩
  have hcond : pref ≠ "" ∧ pref ≠ "auto" := ⟨hp1, hp2⟩
  simp only [computeOrder, if_pos hcond, hfind, hget, herase]

/-- Witness for C2 at the spec examples: with priorities 1, 2, 3 all
available, preference "auto" yields [P1, P2, P3]; preference "P3"
(found at index 2) yields the spliced order described by the theorem. -/
theorem computeOrder_attempt_ordering_witness :
    ("P3" : String) ≠ "" ∧ ("P3" : String) ≠ "auto" ∧
    (getAvailableProviders demoProviders).findIdx?
      (fun p => jsToLower p.name == jsToLower "P3") = some 2 ∧
    ((∀ q : Option String, (computeOrder demoProviders q).Perm
        (demoProviders.filter fun p => p.checkAvailable.getD true)) ∧
     computeOrder demoProviders none = getAvailableProviders demoProviders ∧
     computeOrder demoProviders (some "auto") = getAvailableProviders demoProviders ∧
     (getAvailableProviders demoProviders).Pairwise priorityLE ∧
     ∃ preferred pre post,
       getAvailableProviders demoProviders = pre ++ preferred :: post ∧
       pre.length = 2 ∧
       (jsToLower preferred.name == jsToLower "P3") = true ∧
       (∀ q ∈ pre, (jsToLower q.name == jsToLower "P3") = false) ∧
       computeOrder demoProviders (some "P3") = preferred :: (pre ++ post)) :=
  ⟨by decide, by decide, by decide,
    computeOrder_attempt_ordering demoProviders "P3" 2 (by decide) (by decide)
      (by decide)⟩

/-- C3: a provider whose availability predicate returns false never
appears in the attempt order for any preference hint, is never invoked,
and never contributes the failure message of an exhausted invocation. -/
theorem unavailable_provider_never_attempted {T : Type}
    (op : ProviderConfiguration → Except String T)
    (ps : List ProviderConfiguration) (pref : Option String)
    (p : ProviderConfiguration) (hp : p.checkAvailable = some false) :
    p ∉ computeOrder ps pref ∧
    p ∉ attemptedProviders op ps pref ∧
    (∀ m, executeWithFallback op ps pref = .error m →
      m = "No AI providers available" ∨
      ∃ q e, q ∈ computeOrder ps pref ∧ q ≠ p ∧ op q = .error e ∧
        m = "All AI providers failed. Last error: " ++ e) := by
  have hfilter : p ∉ ps.filter (fun q => q.checkAvailable.getD true) := by
    intro hmem
    have hkeep := List.of_mem_filter hmem
    rw [hp] at hkeep
    simp at hkeep
  have h1 : p ∉ computeOrder ps pref :=
    fun h => hfilter ((computeOrder_perm ps pref).mem_iff.mp h)
  refine ⟨h1, ?_, ?_⟩
  · intro h
    exact h1 ((attemptLoop_trace_sublist op (computeOrder ps pref) none).mem h)
  · intro m hm
    rcases attemptLoop_error_source op (computeOrder ps pref) none m hm with
      ⟨-, -, hmsg⟩ | ⟨e, hle, -, -⟩ | ⟨q, e, hq, he, hmsg⟩
    · exact Or.inl hmsg
    · cases hle
    · exact Or.inr ⟨q, e, hq, fun hqp => h1 (hqp ▸ hq), he, hmsg⟩

/-- Witness for C3: with the P2 availability predicate returning false
and P2 even preferred, P2 is absent from the order and the trace, and an
exhausted run blames an available provider instead. -/
theorem unavailable_provider_never_attempted_witness :
    ({ name := "P2", priority := 2, checkAvailable := some false } :
        ProviderConfiguration).checkAvailable = some false ∧
    ({ name := "P2", priority := 2, checkAvailable := some false } :
        ProviderConfiguration) ∉
      computeOrder demoProvidersP2Down (some "P2") ∧
    ({ name := "P2", priority := 2, checkAvailable := some false } :
        ProviderConfiguration) ∉
      attemptedProviders demoOpAllFail demoProvidersP2Down (some "P2") ∧
    computeOrder demoProvidersP2Down (some "P2") =
      [{ name := "P1", priority := 1, checkAvailable := none },
       { name := "P3", priority := 3, checkAvailable := none }] := by
  have h := unavailable_provider_never_attempted demoOpAllFail demoProvidersP2Down
    (some "P2") { name := "P2", priority := 2, checkAvailable := some false } rfl
  exact ⟨rfl, h.1, h.2.1, by decide⟩

/-- C4: when every candidate in the attempt order fails, the call fails
with the aggregate message embedding the last failure; when the order
was empty from the start it fails with "No AI providers available". -/
theorem executeWithFallback_exhaustion {T : Type}
    (op : ProviderConfiguration → Except String T)
    (ps : List ProviderConfiguration) (pref : Option String)
    (hfail : ∀ q ∈ computeOrder ps pref, ∃ e, op q = .error e) :
    (computeOrder ps pref = [] →
      executeWithFallback op ps pref = .error "No AI providers available") ∧
    (∀ pre q, computeOrder ps pref = pre ++ [q] →
      ∃ e, op q = .error e ∧
        executeWithFallback op ps pref =
          .error ("All AI providers failed. Last error: " ++ e)) := by
  constructor
  · intro h
    unfold executeWithFallback
    rw [h]
    rfl
  · intro pre q hdec
    obtain ⟨e, he⟩ := hfail q (by rw [hdec]; simp)
    refine ⟨e, he, ?_⟩
    unfold executeWithFallback
    rw [attemptLoop_all_fail op (computeOrder ps pref) none hfail, hdec,
      lastFailure_concat op pre q none e he]

/-- Witness for C4: all three demo providers fail, and the aggregate
error embeds the message of P3, the last provider attempted. -/
theorem executeWithFallback_exhaustion_witness :
    demoOpAllFail { name := "P3", priority := 3, checkAvailable := none } =
      .error "fail-P3" ∧
    executeWithFallback demoOpAllFail demoProviders (some "auto") =
      .error "All AI providers failed. Last error: fail-P3" := by
  have hfail : ∀ q ∈ computeOrder demoProviders (some "auto"),
      ∃ e, demoOpAllFail q = Except.error e :=
    fun q _ => ⟨"fail-" ++ q.name, rfl⟩
  have h := (executeWithFallback_exhaustion demoOpAllFail demoProviders
    (some "auto") hfail).2
    [{ name := "P1", priority := 1, checkAvailable := none },
     { name := "P2", priority := 2, checkAvailable := some true }]
    { name := "P3", priority := 3, checkAvailable := none } (by decide)
  obtain ⟨e, he, hres⟩ := h
  have hfix : demoOpAllFail { name := "P3", priority := 3, checkAvailable := none } =
      Except.error "fail-P3" := rfl
  obtain rfl : "fail-P3" = e := Except.error.inj (hfix.symm.trans he)
  exact ⟨rfl, hres⟩

theorem retryWithBackoffGo_result_from_op {T : Type} (op : Nat → Except String T)
    (maxRetries baseDelay : Nat) :
    ∀ (fuel attempt : Nat), attempt ≤ maxRetries → maxRetries - attempt < fuel →
    ∃ k, attempt ≤ k ∧ k ≤ maxRetries ∧
      (retryWithBackoffGo op maxRetries baseDelay fuel attempt).result = op k := by
  intro fuel
  induction fuel with
  | zero =>
    intro attempt _ hfuel
    omega
  | succ fuel ih =>
    intro attempt h1 hfuel
    simp only [retryWithBackoffGo, if_pos h1]
    cases hop : op attempt with
    | ok v =>
      exact ⟨attempt, Nat.le_refl attempt, h1, by simp [hop]⟩
    | error e =>
      dsimp only
      by_cases hstop : (attempt == maxRetries || !(geminiIsRateLimitError e)) = true
      · rw [if_pos hstop]
        exact ⟨attempt, Nat.le_refl attempt, h1, hop.symm⟩
      · rw [if_neg hstop]
        have hne : attempt ≠ maxRetries := by
          intro hcontra
          simp [hcontra] at hstop
        obtain ⟨k, hk1, hk2, hk3⟩ := ih (attempt + 1) (by omega) (by omega)
        exact ⟨k, by omega, hk2, hk3⟩

theorem retryWithBackoffGo_abort {T : Type} (op : Nat → Except String T)
    (maxRetries baseDelay : Nat) (m : Nat) (e : String)
    (hm : m ≤ maxRetries) (hop : op m = .error e)
    (hre : geminiIsRateLimitError e = false) :
    ∀ (fuel a : Nat), a ≤ m → maxRetries - a < fuel →
    (∀ j, a ≤ j → j < m →
      ∃ ej, op j = .error ej ∧ geminiIsRateLimitError ej = true) →
    (retryWithBackoffGo op maxRetries baseDelay fuel a).result = .error e ∧
    (retryWithBackoffGo op maxRetries baseDelay fuel a).attempts = m := by
  intro fuel
  induction fuel with
  | zero =>
    intro a ha hfuel _
    omega
  | succ fuel ih =>
    intro a ha hfuel hrl
    have haM : a ≤ maxRetries := Nat.le_trans ha hm
    simp only [retryWithBackoffGo, if_pos haM]
    by_cases ham : a = m
    · subst ham
      rw [hop]
      dsimp only
      simp [hre]
    · have ham2 : a < m := Nat.lt_of_le_of_ne ha ham
      obtain ⟨ej, hej, hrj⟩ := hrl a (Nat.le_refl a) ham2
      rw [hej]
      dsimp only
      by_cases hstop : ((a == maxRetries) || !(geminiIsRateLimitError ej)) = true
      · exfalso
        rw [hrj] at hstop
        simp at hstop
        omega
      · rw [if_neg hstop]
        have hrec := ih (a + 1) (by omega) (by omega)
          (fun j hj1 hj2 => hrl j (by omega) hj2)
        simpa using hrec

/-- C9: with `maxRetries` at least 1, `retryWithBackoff` either returns
a value produced by the supplied operation or rethrows an error thrown
by one of the attempts of the operation; the trailing
"Max retries exceeded" throw after the loop is unreachable. -/
theorem retryWithBackoff_result_from_operation {T : Type}
    (op : Nat → Except String T) (maxRetries baseDelay : Nat)
    (h : 1 ≤ maxRetries) :
    ∃ k, 1 ≤ k ∧ k ≤ maxRetries ∧
      (retryWithBackoff op maxRetries baseDelay).result = op k :=
  retryWithBackoffGo_result_from_op op maxRetries baseDelay (maxRetries + 1) 1 h
    (by omega)

/-- Witness for C9 at the source defaults under persistent rate-limit
failures. -/
theorem retryWithBackoff_result_from_operation_witness :
    1 ≤ 3 ∧ ∃ k, 1 ≤ k ∧ k ≤ 3 ∧
      (retryWithBackoff rateLimitedOp 3 1000).result = rateLimitedOp k :=
  ⟨by decide, retryWithBackoff_result_from_operation rateLimitedOp 3 1000 (by decide)⟩

/-- C5 counterexample: under persistent rate-limit errors with the
source defaults (maxRetries = 3, baseDelay = 1000), the delays slept are
1000ms then 2000ms; the delay before attempt 2 (the first slept delay)
is 1000 = baseDelay * 2^(2-2), not baseDelay * 2^(2-1) = 2000 as the
formula of the claim reads. -/
theorem retryWithBackoff_delay_formula_counterexample :
    (retryWithBackoff rateLimitedOp 3 1000).delays = [1000, 2000] ∧
    ¬((retryWithBackoff rateLimitedOp 3 1000).delays.getD 0 0 =
      1000 * 2 ^ (2 - 1)) :=
  ⟨by decide, by decide⟩

/-- C5 (amended): under repeated rate-limit errors with maxRetries = 3
and baseDelay = 1000, exactly 3 attempts of the operation occur; a delay
is slept only after a non-final rate-limited attempt, and the j-th delay
(slept before attempt j+1) is baseDelay * 2^(j-1), i.e. 1000ms then
2000ms, doubling; a non-rate-limit error on any attempt m, after
rate-limited attempts before it, aborts the loop immediately and
propagates as the single error of attempt m; under pure rate limiting
the final failure propagates as the single error of the last attempt. -/
theorem retryWithBackoff_backoff_schedule {T : Type} (op : Nat → Except String T)
    (e1 e2 e3 : String)
    (h1 : op 1 = .error e1) (h2 : op 2 = .error e2) (h3 : op 3 = .error e3)
    (hr1 : geminiIsRateLimitError e1 = true)
    (hr2 : geminiIsRateLimitError e2 = true)
    (_hr3 : geminiIsRateLimitError e3 = true) :
    (retryWithBackoff op 3 1000).attempts = 3 ∧
    (retryWithBackoff op 3 1000).delays = [1000 * 2 ^ 0, 1000 * 2 ^ 1] ∧
    (retryWithBackoff op 3 1000).result = .error e3 ∧
    (∀ (op2 : Nat → Except String T) (m : Nat) (e : String),
      1 ≤ m → m ≤ 3 →
      (∀ j, 1 ≤ j → j < m →
        ∃ ej, op2 j = .error ej ∧ geminiIsRateLimitError ej = true) →
      op2 m = .error e →
      geminiIsRateLimitError e = false →
      (retryWithBackoff op2 3 1000).result = .error e ∧
      (retryWithBackoff op2 3 1000).attempts = m) := by
  have hrun : retryWithBackoff op 3 1000 = ⟨.error e3, 3, [1000, 2000]⟩ := by
    simp [retryWithBackoff, retryWithBackoffGo, h1, h2, h3, hr1, hr2]
  refine ⟨by simp [hrun], by simp [hrun], by simp [hrun], ?_⟩
  intro op2 m e hm1 hm3 hpre he hre
  exact retryWithBackoffGo_abort op2 3 1000 m e hm3 he hre 4 1 hm1 (by omega) hpre

/-- Witness for C5 (amended): persistent literal "429" errors give the
full schedule, and an operation that is rate-limited on attempt 1 and
throws a non-rate-limit error on attempt 2 aborts there, surfacing that
error after exactly 2 attempts. -/
theorem retryWithBackoff_backoff_schedule_witness :
    rateLimitedOp 1 = .error "429 Too Many Requests" ∧
    geminiIsRateLimitError "429 Too Many Requests" = true ∧
    ((retryWithBackoff rateLimitedOp 3 1000).attempts = 3 ∧
     (retryWithBackoff rateLimitedOp 3 1000).delays = [1000 * 2 ^ 0, 1000 * 2 ^ 1] ∧
     (retryWithBackoff rateLimitedOp 3 1000).result =
       .error "429 Too Many Requests" ∧
     (∀ (op2 : Nat → Except String String) (m : Nat) (e : String),
       1 ≤ m → m ≤ 3 →
       (∀ j, 1 ≤ j → j < m →
         ∃ ej, op2 j = .error ej ∧ geminiIsRateLimitError ej = true) →
       op2 m = .error e →
       geminiIsRateLimitError e = false →
       (retryWithBackoff op2 3 1000).result = .error e ∧
       (retryWithBackoff op2 3 1000).attempts = m)) ∧
    (retryWithBackoff mixedFailureOp 3 1000).result = .error "bad gateway" ∧
    (retryWithBackoff mixedFailureOp 3 1000).attempts = 2 := by
  have h := retryWithBackoff_backoff_schedule rateLimitedOp
    "429 Too Many Requests" "429 Too Many Requests" "429 Too Many Requests"
    rfl rfl rfl (by decide) (by decide) (by decide)
  have hpre : ∀ j, 1 ≤ j → j < 2 →
      ∃ ej, mixedFailureOp j = Except.error ej ∧
        geminiIsRateLimitError ej = true := by
    intro j hj1 hj2
    obtain rfl : j = 1 := by omega
    exact ⟨"429 rate limited", rfl, by decide⟩
  have habort := h.2.2.2 mixedFailureOp 2 "bad gateway" (by decide) (by decide)
    hpre rfl (by decide)
  exact ⟨rfl, by decide, h, habort.1, habort.2⟩

/-- C6: when every provider ordered before p lacks the report
capability and p implements it successfully, `generateReport` yields the
result of p with the name of p; each non-implementing provider before p
is one failed attempt whose closure throws the fixed unsupported-message
error, and no exception escapes before p is reached. -/
theorem generateReport_skips_unsupported
    (impl : ProviderConfiguration → Option (Except String String))
    (ps : List ProviderConfiguration)
    (pre : List ProviderConfiguration) (p : ProviderConfiguration)
    (post : List ProviderConfiguration) (v : String) (now : String)
    (horder : computeOrder ps none = pre ++ p :: post)
    (hpre : ∀ q ∈ pre, impl q = none)
    (_hpost : ∀ q ∈ post, impl q = none)
    (hp : impl p = some (.ok v)) :
    executeWithFallback (reportOperation impl) ps none = .ok (v, p.name) ∧
    aiGenerateReport impl ps now = .ok
      { analysis := v, provider := p.name,
        metadata := { language := "multiple", analysisType := "report",
                      timestamp := now } } ∧
    attemptedProviders (reportOperation impl) ps none = pre ++ [p] ∧
    (∀ q ∈ pre, reportOperation impl q =
      .error "Report generation not supported by this provider") := by
  have hfailures : ∀ q ∈ pre,
      reportOperation impl q =
        .error "Report generation not supported by this provider" := by
    intro q hq
    simp [reportOperation, hpre q hq]
  have hfail : ∀ q ∈ pre, ∃ e, reportOperation impl q = .error e :=
    fun q hq => ⟨_, hfailures q hq⟩
  have hpok : reportOperation impl p = .ok v := by
    simp [reportOperation, hp]
  have h := attemptLoop_first_success (reportOperation impl) pre p post v none
    hfail hpok
  have hexec : executeWithFallback (reportOperation impl) ps none =
      .ok (v, p.name) := by
    unfold executeWithFallback
    rw [horder, h]
  refine ⟨hexec, ?_, ?_, hfailures⟩
  · unfold aiGenerateReport
    rw [hexec]
  · unfold attemptedProviders
    rw [horder, h]

/-- Witness for C6 at the spec example: only P2 implements report
generation, P1 and P3 do not; the report is produced by P2 after one
failed attempt on P1, with P3 never invoked. -/
theorem generateReport_skips_unsupported_witness :
    demoReportImpl { name := "P1", priority := 1, checkAvailable := none } = none ∧
    demoReportImpl { name := "P2", priority := 2, checkAvailable := some true } =
      some (.ok "the report") ∧
    executeWithFallback (reportOperation demoReportImpl) demoProviders none =
      .ok ("the report", "P2") ∧
    aiGenerateReport demoReportImpl demoProviders "T0" = .ok
      { analysis := "the report", provider := "P2",
        metadata := { language := "multiple", analysisType := "report",
                      timestamp := "T0" } } ∧
    attemptedProviders (reportOperation demoReportImpl) demoProviders none =
      [{ name := "P1", priority := 1, checkAvailable := none },
       { name := "P2", priority := 2, checkAvailable := some true }] := by
  have hpre : ∀ q ∈ [({ name := "P1", priority := 1, checkAvailable := none } :
      ProviderConfiguration)], demoReportImpl q = none := by
    intro q hq
    rw [List.mem_singleton] at hq
    subst hq
    rfl
  have hpost : ∀ q ∈ [({ name := "P3", priority := 3, checkAvailable := none } :
      ProviderConfiguration)], demoReportImpl q = none := by
    intro q hq
    rw [List.mem_singleton] at hq
    subst hq
    rfl
  have h := generateReport_skips_unsupported demoReportImpl demoProviders
    [{ name := "P1", priority := 1, checkAvailable := none }]
    { name := "P2", priority := 2, checkAvailable := some true }
    [{ name := "P3", priority := 3, checkAvailable := none }]
    "the report" "T0" (by decide) hpre hpost rfl
  exact ⟨rfl, rfl, h.1, h.2.1, h.2.2.1⟩

/-- C10: the Gemini adapter module either fails to load with
"Gemini API key is required" (exactly when the configured key is empty)
or yields an instance whose credential is non-empty and whose
`isAvailable` returns true; and the orchestrator registry entry for
Gemini carries no availability predicate, so it always passes the
availability filter. -/
theorem geminiService_never_unavailable (config : GeminiConfig) :
    (config.apiKey = "" →
      loadGeminiModule config = .error "Gemini API key is required") ∧
    (∀ s, loadGeminiModule config = .ok s →
      s.config.apiKey ≠ "" ∧ s.isAvailable = true) ∧
    (∀ groqAvailable : Bool,
      ({ name := "Gemini", priority := 1, checkAvailable := none } :
        ProviderConfiguration) ∈
        getAvailableProviders (aiServiceProviders groqAvailable)) := by
  refine ⟨?_, ?_, ?_⟩
  · intro h
    simp [loadGeminiModule, h]
  · intro s hs
    unfold loadGeminiModule at hs
    by_cases hkey : config.apiKey = ""
    · rw [if_pos (by simp [hkey])] at hs
      cases hs
    · rw [if_neg (by simpa using hkey)] at hs
      obtain rfl : GeminiService.mk config = s := Except.ok.inj hs
      refine ⟨hkey, ?_⟩
      simp [GeminiService.isAvailable, hkey]
  · intro groqAvailable
    cases groqAvailable <;> decide

/-- Witness for C10: a non-empty key loads an always-available instance;
an empty key makes the module load throw. -/
theorem geminiService_never_unavailable_witness :
    loadGeminiModule ⟨"key"⟩ = .ok ⟨⟨"key"⟩⟩ ∧
    (GeminiService.mk ⟨"key"⟩).isAvailable = true ∧
    loadGeminiModule ⟨""⟩ = .error "Gemini API key is required" := by
  refine ⟨rfl, ?_, ?_⟩
  · exact ((geminiService_never_unavailable ⟨"key"⟩).2.1 ⟨⟨"key"⟩⟩ rfl).2
  · exact (geminiService_never_unavailable ⟨""⟩).1 rfl

/-- C8: a request whose code field is missing, not a string, or empty
after trimming is rejected by every analyze/explain/improve controller
with status 400 and the body
`{success:false, error:"Validation Error",
message:"Code is required and must be a non-empty string"}`, with an
empty provider-invocation trace: no orchestration attempt occurs. -/
theorem code_validation_rejects_before_orchestration
    (op : ProviderConfiguration → Except String String)
    (ps : List ProviderConfiguration)
    (code language analysisType preferredProvider : JsValue) (now : String)
    (hcode : ∀ s, code = JsValue.str s → jsTrim s = "") :
    validateCode code = some "Code is required and must be a non-empty string" ∧
    analyzeCodeController op ps code language analysisType preferredProvider now =
      ((400, .obj [("success", .boolean false),
                   ("error", .str "Validation Error"),
                   ("message", .str "Code is required and must be a non-empty string")]),
       []) ∧
    explainCodeController op ps code language now =
      ((400, .obj [("success", .boolean false),
                   ("error", .str "Validation Error"),
                   ("message", .str "Code is required and must be a non-empty string")]),
       []) ∧
    suggestImprovementsController op ps code language now =
      ((400, .obj [("success", .boolean false),
                   ("error", .str "Validation Error"),
                   ("message", .str "Code is required and must be a non-empty string")]),
       []) := by
  have hval : validateCode code =
      some "Code is required and must be a non-empty string" := by
    cases code with
    | str s =>
      have hs := hcode s rfl
      simp [validateCode, JsValue.truthy, JsValue.isStringValue,
        JsValue.asString, hs]
    | jsUndefined => rfl
    | nullv => rfl
    | num n =>
      simp [validateCode, JsValue.truthy, JsValue.isStringValue]
    | boolean b =>
      simp [validateCode, JsValue.truthy, JsValue.isStringValue]
  refine ⟨hval, ?_, ?_, ?_⟩
  · simp [analyzeCodeController, hval, sendValidationError, sendError]
  · simp [explainCodeController, hval, sendValidationError, sendError]
  · simp [suggestImprovementsController, hval, sendValidationError, sendError]

/-- Witness for C8 at the spec scenario: a code field that is blank
after trimming is rejected with the exact validation payload and no
provider is invoked. -/
theorem code_validation_rejects_before_orchestration_witness :
    jsTrim "   " = "" ∧
    analyzeCodeController demoOpAllFail demoProviders (.str "   ") .jsUndefined .jsUndefined
      .jsUndefined "T" =
      ((400, .obj [("success", .boolean false),
                   ("error", .str "Validation Error"),
                   ("message", .str "Code is required and must be a non-empty string")]),
       []) := by
  have hcode : ∀ s, JsValue.str "   " = JsValue.str s → jsTrim s = "" := by
    intro s h
    cases h
    rfl
  have h := code_validation_rejects_before_orchestration demoOpAllFail
    demoProviders (.str "   ") .jsUndefined .jsUndefined .jsUndefined "T" hcode
  exact ⟨rfl, h.2.1⟩

/-- C7 counterexample: a successful POST /report response (status 200)
whose data object has no top-level "analysis" field — the service
outcome is nested under the key "report" instead — so the success
payload does not have the shape
`{analysis, provider, metadata:{language:"multiple", analysisType:"report", timestamp}}`
stated by the claim. -/
theorem report_payload_shape_counterexample :
    (generateReportController demoReportImpl demoProviders
        (some [Json.str "r1"]) (.obj []) "T0" "T1").1.1 = 200 ∧
    ((generateReportController demoReportImpl demoProviders
        (some [Json.str "r1"]) (.obj []) "T0" "T1").1.2.getField "data").bind
      (fun d => d.getField "analysis") = none ∧
    (((generateReportController demoReportImpl demoProviders
        (some [Json.str "r1"]) (.obj []) "T0" "T1").1.2.getField "data").bind
      (fun d => d.getField "report")).isSome = true :=
  ⟨rfl, rfl, rfl⟩

/-- C7 (amended): for every successful report orchestration, the service
outcome has the shape {analysis, provider, metadata:{language:"multiple",
analysisType:"report", timestamp}} with the succeeding provider name and
the completion timestamp, and the POST /report success payload wraps it
as {success:true, data:{report: thatOutcome, metadata:{projectInfo,
generatedAt, resultsCount}}} with HTTP status 200. -/
theorem report_payload_shape
    (impl : ProviderConfiguration → Option (Except String String))
    (ps : List ProviderConfiguration) (results : List Json)
    (projectInfo : Json) (now generatedAt : String)
    (report provider : String)
    (hres : results.length ≠ 0)
    (hok : executeWithFallback (reportOperation impl) ps none =
      .ok (report, provider)) :
    aiGenerateReport impl ps now = .ok
      { analysis := report, provider := provider,
        metadata := { language := "multiple", analysisType := "report",
                      timestamp := now } } ∧
    generateReportController impl ps (some results) projectInfo now generatedAt =
      ((200, .obj [("success", .boolean true),
         ("data", .obj
           [("report", .obj [("analysis", .str report),
                             ("provider", .str provider),
                             ("metadata", .obj [("language", .str "multiple"),
                                                ("analysisType", .str "report"),
                                                ("timestamp", .str now)])]),
            ("metadata", .obj [("projectInfo", projectInfo),
                               ("generatedAt", .str generatedAt),
                               ("resultsCount", .num results.length)])])]),
       attemptedProviders (reportOperation impl) ps none) := by
  have hgen : aiGenerateReport impl ps now = .ok
      { analysis := report, provider := provider,
        metadata := { language := "multiple", analysisType := "report",
                      timestamp := now } } := by
    unfold aiGenerateReport
    rw [hok]
  have hlen : (results.length == 0) = false := by
    simpa using hres
  refine ⟨hgen, ?_⟩
  simp [generateReportController, hlen, hgen, sendSuccess, jsonOfProcessed]

/-- Witness for C7 (amended) at a concrete successful report request. -/
theorem report_payload_shape_witness :
    executeWithFallback (reportOperation demoReportImpl) demoProviders none =
      .ok ("the report", "P2") ∧
    aiGenerateReport demoReportImpl demoProviders "T0" = .ok
      { analysis := "the report", provider := "P2",
        metadata := { language := "multiple", analysisType := "report",
                      timestamp := "T0" } } ∧
    generateReportController demoReportImpl demoProviders
        (some [Json.str "r1"]) (.obj []) "T0" "T1" =
      ((200, .obj [("success", .boolean true),
         ("data", .obj
           [("report", .obj [("analysis", .str "the report"),
                             ("provider", .str "P2"),
                             ("metadata", .obj [("language", .str "multiple"),
                                                ("analysisType", .str "report"),
                                                ("timestamp", .str "T0")])]),
            ("metadata", .obj [("projectInfo", .obj []),
                               ("generatedAt", .str "T1"),
                               ("resultsCount", .num 1)])])]),
       attemptedProviders (reportOperation demoReportImpl) demoProviders none) := by
  have h := report_payload_shape demoReportImpl demoProviders [Json.str "r1"]
    (.obj []) "T0" "T1" "the report" "P2" (by decide) rfl
  exact ⟨rfl, h.1, h.2⟩

end CodeMentor
